import Mathlib

/-!
Verification development for `scripts/qbit-mover-manage.py` (qBittorrent
mover pause/resume coordinator).

The Python program is shallowly embedded: torrents are records, the
filesystem and the qBittorrent client are explicit oracles passed as
parameters, `main` is a function from an environment and parsed arguments
to an exit code together with a trace of observable events (connection
attempts, per-torrent pause/resume calls, state-file reads/writes/deletes).
Timestamps are modelled as integers (the code only compares them).
-/

set_option autoImplicit false

namespace QbitMover

/-- A torrent record as seen through the qbittorrent-api client:
stable hash, display name, content path and added-on timestamp
(`added_on`, seconds since epoch). -/
structure Torrent where
  hash : String
  name : String
  content_path : String
  added_on : Int
deriving DecidableEq, Repr

/-- Operating-system errors returned by `os.stat`; `enoent` is
"not found", anything else (e.g. `eacces`, permission denied) is a
different failure. -/
inductive OsErr where
  | enoent
  | eacces
  | other (code : Nat)
deriving DecidableEq, Repr

/-- Oracle for `os.stat` on a path: success or a concrete OS error. -/
abbrev Stat := String → Except OsErr Unit

/-- Model of `content_path.lstrip("/")`: drop every leading slash. -/
def lstripSlash (s : String) : String :=
  ⟨s.data.dropWhile (fun c => c = '/')⟩

/-- Whether a path's last character is a slash (used by `os.path.join`). -/
def endsWithSlash (s : String) : Bool :=
  s.data.getLast? = some '/'

/-- Model of `os.path.join(a, b)` for a second component that is not absolute
(the caller has stripped leading slashes): keeps `b` when `a` is empty,
otherwise inserts a single separator unless `a` already ends in one. -/
def os_path_join (a b : String) : String :=
  if a = "" then b
  else if endsWithSlash a then a ++ b
  else a ++ "/" ++ b

/-- Model of `os.path.exists(path)`: `True` exactly when `os.stat` succeeds.
Python's implementation swallows every `OSError` (file absent, permission
denied, ...) and returns `False` for all of them. -/
def os_path_exists (stat : Stat) (p : String) : Bool :=
  match stat p with
  | .ok _ => true
  | .error _ => false

/-- The function `exists_in_cache(cache_mount, content_path)` from the source: join the
cache mount with the slash-stripped content path and test existence. -/
def exists_in_cache (stat : Stat) (cache_mount content_path : String) : Bool :=
  os_path_exists stat (os_path_join cache_mount (lstripSlash content_path))

/-- The cache clause of the selector's condition,
`not cache_mount or exists_in_cache(cache_mount, torrent.content_path)`:
Python treats both `None` and the empty string as falsy. -/
def cache_pass (stat : Stat) (cache_mount : Option String) (t : Torrent) : Bool :=
  match cache_mount with
  | none => true
  | some c => if c = "" then true else exists_in_cache stat c t.content_path

/-- The function `filter_torrents` from the source: scan in order; include a torrent
when `timeoffset_to <= added_on <= timeoffset_from` and the cache clause
passes; stop the whole scan (`break`) at the first torrent with
`added_on < timeoffset_to`. -/
def filter_torrents (stat : Stat) (torrent_list : List Torrent)
    (timeoffset_from timeoffset_to : Int) (cache_mount : Option String) :
    List Torrent :=
  match torrent_list with
  | [] => []
  | t :: rest =>
    if timeoffset_to ≤ t.added_on ∧ t.added_on ≤ timeoffset_from then
      if cache_pass stat cache_mount t then
        t :: filter_torrents stat rest timeoffset_from timeoffset_to cache_mount
      else
        filter_torrents stat rest timeoffset_from timeoffset_to cache_mount
    else if t.added_on < timeoffset_to then []
    else filter_torrents stat rest timeoffset_from timeoffset_to cache_mount

/-- The pure time-window predicate `timeoffset_to <= added_on <= timeoffset_from`. -/
def in_window (timeoffset_from timeoffset_to : Int) (t : Torrent) : Bool :=
  decide (timeoffset_to ≤ t.added_on ∧ t.added_on ≤ timeoffset_from)

/-- Sortedness contract from the upstream client query: torrents are
listed by `added_on` descending (newest first). -/
def SortedDesc (l : List Torrent) : Prop :=
  l.Pairwise (fun a b => b.added_on ≤ a.added_on)

instance decSortedDesc (l : List Torrent) : Decidable (SortedDesc l) :=
  inferInstanceAs
    (Decidable (List.Pairwise (fun a b : Torrent => b.added_on ≤ a.added_on) l))

/-! ### Selector lemmas -/

theorem cache_pass_none (stat : Stat) (t : Torrent) :
    cache_pass stat none t = true := rfl

theorem filter_torrents_nil (stat : Stat) (f t_ : Int) (cm : Option String) :
    filter_torrents stat [] f t_ cm = [] := rfl

/-- With the sorted-descending contract, the early exit is harmless: the
selector computes exactly the ordinary filter by the time window (together
with the cache clause). -/
theorem filter_torrents_sorted_eq (stat : Stat) (cm : Option String)
    (f t_ : Int) :
    ∀ l : List Torrent, SortedDesc l →
      filter_torrents stat l f t_ cm =
        l.filter (fun t => in_window f t_ t && cache_pass stat cm t)
  | [], _ => rfl
  | t :: rest, h => by
    have hrest : SortedDesc rest := (List.pairwise_cons.mp h).2
    have hbound : ∀ u ∈ rest, u.added_on ≤ t.added_on :=
      (List.pairwise_cons.mp h).1
    have ih := filter_torrents_sorted_eq stat cm f t_ rest hrest
    by_cases hw : t_ ≤ t.added_on ∧ t.added_on ≤ f
    · by_cases hc : cache_pass stat cm t
      · simp [filter_torrents, hw, hc, in_window, List.filter_cons, ih]
      · simp [filter_torrents, hw, hc, in_window, List.filter_cons, ih]
    · by_cases hlt : t.added_on < t_
      · have hnone : rest.filter (fun u => in_window f t_ u && cache_pass stat cm u) = [] := by
          apply List.filter_eq_nil_iff.mpr
          intro u hu
          have : u.added_on < t_ := lt_of_le_of_lt (hbound u hu) hlt
          simp [in_window]
          intro hle
          exact absurd hle (not_le.mpr this)
        have hwt : in_window f t_ t = false := by
          simp [in_window]
          intro hle
          exact absurd hle (not_le.mpr hlt)
        simp [filter_torrents, hw, hlt, List.filter_cons, hwt, hnone]
      · have hwt : in_window f t_ t = false := by
          simp [in_window]
          intro _
          by_contra hle
          exact hw ⟨not_lt.mp hlt, not_lt.mp hle⟩
        simp [filter_torrents, hw, hlt, List.filter_cons, hwt, ih]

/-- The selector's output is always a sublist of its input (order
preserved, no duplication), for any input, sorted or not. -/
theorem filter_torrents_sublist (stat : Stat) (cm : Option String)
    (f t_ : Int) :
    ∀ l : List Torrent, List.Sublist (filter_torrents stat l f t_ cm) l
  | [] => List.Sublist.refl []
  | t :: rest => by
    by_cases hw : t_ ≤ t.added_on ∧ t.added_on ≤ f
    · by_cases hc : cache_pass stat cm t
      · simpa [filter_torrents, hw, hc] using
          (filter_torrents_sublist stat cm f t_ rest).cons₂ t
      · simpa [filter_torrents, hw, hc] using
          (filter_torrents_sublist stat cm f t_ rest).cons t
    · by_cases hlt : t.added_on < t_
      · simp [filter_torrents, hw, hlt]
      · simpa [filter_torrents, hw, hlt] using
          (filter_torrents_sublist stat cm f t_ rest).cons t

/-- Every torrent the selector outputs satisfies the time window and the
cache clause, for any input, sorted or not. -/
theorem filter_torrents_mem (stat : Stat) (cm : Option String)
    (f t_ : Int) :
    ∀ l : List Torrent, ∀ t ∈ filter_torrents stat l f t_ cm,
      (t_ ≤ t.added_on ∧ t.added_on ≤ f) ∧ cache_pass stat cm t = true
  | [], t, ht => by simp [filter_torrents] at ht
  | u :: rest, t, ht => by
    by_cases hw : t_ ≤ u.added_on ∧ u.added_on ≤ f
    · by_cases hc : cache_pass stat cm u
      · simp [filter_torrents, hw, hc] at ht
        rcases ht with h | h
        · subst h; exact ⟨hw, hc⟩
        · exact filter_torrents_mem stat cm f t_ rest t h
      · simp [filter_torrents, hw, hc] at ht
        exact filter_torrents_mem stat cm f t_ rest t ht
    · by_cases hlt : u.added_on < t_
      · simp [filter_torrents, hw, hlt] at ht
      · simp [filter_torrents, hw, hlt] at ht
        exact filter_torrents_mem stat cm f t_ rest t ht

/-- Enabling the cache filter only removes torrents: the selection with a
cache mount is a sublist of the selection without one, on any input. -/
theorem filter_torrents_cache_sublist (stat : Stat) (c : String)
    (f t_ : Int) :
    ∀ l : List Torrent,
      List.Sublist (filter_torrents stat l f t_ (some c))
        (filter_torrents stat l f t_ none)
  | [] => List.Sublist.refl []
  | t :: rest => by
    by_cases hw : t_ ≤ t.added_on ∧ t.added_on ≤ f
    · by_cases hc : cache_pass stat (some c) t
      · simpa [filter_torrents, hw, hc, cache_pass_none] using
          (filter_torrents_cache_sublist stat c f t_ rest).cons₂ t
      · simpa [filter_torrents, hw, hc, cache_pass_none] using
          (filter_torrents_cache_sublist stat c f t_ rest).cons t
    · by_cases hlt : t.added_on < t_
      · simp [filter_torrents, hw, hlt]
      · simpa [filter_torrents, hw, hlt] using
          filter_torrents_cache_sublist stat c f t_ rest

/-! ### State store -/

/-- JSON values, the image of `json.load` / the payload of `json.dump`. -/
inductive Json where
  | null
  | bool (b : Bool)
  | num (n : Int)
  | str (s : String)
  | arr (elems : List Json)
  | obj (fields : List (String × Json))

/-- Whether a JSON value is the string `s` (used for membership tests in
JSON arrays). -/
def json_is_str (j : Json) (s : String) : Bool :=
  match j with
  | .str t => t == s
  | _ => false

/-- Content of a file on disk: text that parses as JSON, or text that
`json.load` rejects with a `JSONDecodeError`. -/
inductive FileContent where
  | json (j : Json)
  | garbage (raw : String)

/-- The filesystem as the state-store sees it: file contents by path, plus
the oracles behind `os.path.dirname(os.path.abspath(·))` (which depends on
the working directory), `os.path.exists` on directories and
`os.access(·, os.W_OK)`. -/
structure FileSys where
  files : String → Option FileContent
  dirOf : String → String
  exists_dir : String → Bool
  writable : String → Bool

/-- Errors `load_torrent_state` (or the later indexing of the state) can
raise, one constructor per distinct Python exception. -/
inductive LoadErr where
  | noStateFile (path : String)
  | corrupted (path : String)
  | missingFields
  | typeErr
  | keyErr (key : String)
deriving DecidableEq, Repr

/-- Errors `save_torrent_state` raises (`RuntimeError` wrapping the
`OSError` message). -/
inductive SaveErr where
  | runtimeSave (msg : String)
deriving DecidableEq, Repr

/-- Python's `key in state` for the JSON shapes `json.load` can return:
field membership on a dict, element membership on a list, substring on a
string, and a `TypeError` on the non-container shapes. -/
def json_contains (j : Json) (key : String) : Except LoadErr Bool :=
  match j with
  | .obj fields => .ok (fields.any (fun kv => kv.1 == key))
  | .arr elems => .ok (elems.any (fun e => json_is_str e key))
  | .str s => .ok (decide (List.IsInfix key.data s.data))
  | _ => .error .typeErr

/-- Python's `state[key]` for a string key: dict lookup (`KeyError` when
absent), `TypeError` on every other shape. -/
def json_get (j : Json) (key : String) : Except LoadErr Json :=
  match j with
  | .obj fields =>
    match fields.find? (fun kv => kv.1 == key) with
    | some kv => .ok kv.2
    | none => .error (.keyErr key)
  | _ => .error .typeErr

/-- The record `save_torrent_state` serializes:
`{'torrent_hashes': [...], 'timestamp': ..., 'version': '1.0'}`. -/
def encode_state (torrents : List Torrent) (now_iso : String) : Json :=
  .obj [("torrent_hashes", .arr (torrents.map (fun t => Json.str t.hash))),
        ("timestamp", .str now_iso),
        ("version", .str "1.0")]

/-- Overwrite the file at `path` (the `open(state_file, 'w')` + dump). -/
def fs_write (fs : FileSys) (path : String) (c : FileContent) : FileSys :=
  { fs with files := fun p => if p = path then some c else fs.files p }

/-- The function `save_torrent_state` from the source: pre-check that the directory of
the state file exists and is writable (each failure a distinct message
wrapped into `RuntimeError`), then overwrite the file with the encoded
state. -/
def save_torrent_state (fs : FileSys) (torrents : List Torrent)
    (now_iso state_file : String) : Except SaveErr FileSys :=
  let d := fs.dirOf state_file
  if fs.exists_dir d = false then
    .error (.runtimeSave ("Failed to save state file: Directory does not exist: " ++ d))
  else if fs.writable d = false then
    .error (.runtimeSave ("Failed to save state file: Directory is not writable: " ++ d))
  else
    .ok (fs_write fs state_file (.json (encode_state torrents now_iso)))

/-- The function `load_torrent_state` from the source: `FileNotFoundError` becomes the
"run pause first" `RuntimeError`, `JSONDecodeError` becomes the
"corrupted" `RuntimeError`, and a loaded state failing the
`all(key in state for key in required_keys)` check raises `ValueError`
("missing required fields"), which no `except` clause of the function
catches (it is not a `JSONDecodeError`). -/
def load_torrent_state (fs : FileSys) (state_file : String) :
    Except LoadErr Json :=
  match fs.files state_file with
  | none => .error (.noStateFile state_file)
  | some (.garbage _) => .error (.corrupted state_file)
  | some (.json state) =>
    match json_contains state "torrent_hashes" with
    | .error e => .error e
    | .ok false => .error .missingFields
    | .ok true =>
      match json_contains state "timestamp" with
      | .error e => .error e
      | .ok false => .error .missingFields
      | .ok true => .ok state

/-! ### State-store lemmas -/

theorem save_torrent_state_ok (fs : FileSys) (torrents : List Torrent)
    (now_iso state_file : String) (fs' : FileSys)
    (h : save_torrent_state fs torrents now_iso state_file = .ok fs') :
    fs'.files state_file = some (.json (encode_state torrents now_iso)) := by
  unfold save_torrent_state at h
  by_cases h1 : fs.exists_dir (fs.dirOf state_file) = false
  · simp [h1] at h
  · by_cases h2 : fs.writable (fs.dirOf state_file) = false
    · simp [h1, h2] at h
    · simp [h1, h2] at h
      subst h
      simp [fs_write]

theorem load_encode_state (fs : FileSys) (torrents : List Torrent)
    (now_iso state_file : String)
    (h : fs.files state_file = some (.json (encode_state torrents now_iso))) :
    load_torrent_state fs state_file = .ok (encode_state torrents now_iso) := by
  unfold load_torrent_state
  rw [h]
  simp [encode_state, json_contains]

theorem json_get_encode_state (torrents : List Torrent) (now_iso : String) :
    json_get (encode_state torrents now_iso) "torrent_hashes" =
      .ok (.arr ((torrents.map Torrent.hash).map Json.str)) := by
  simp [encode_state, json_get, List.find?]

/-! ### Command line and main -/

/-- The positional `action` argument. -/
inductive Action where
  | pause
  | resume
deriving DecidableEq, Repr

/-- The parsed `argparse.Namespace`: one field per argument, already
holding the default when the flag was not supplied. -/
structure Args where
  action : Action
  host : String
  user : String
  password : String
  cache_mount : Option String
  days_from : Int
  days_to : Int
  status_filter : String
  state_file : String

/-- What the command line actually supplied for the four pause-only
flags (`none` = flag absent). `argparse` collapses this into the
`Namespace`, losing the distinction between "absent" and "supplied with
the default value". -/
structure SuppliedFilters where
  cache_mount : Option String
  days_from : Option Int
  days_to : Option Int
  status_filter : Option String

/-- Model of the `argparse` parsing of the four pause-only flags into the `Namespace`:
defaults are `cache_mount=None`, `days_from=0`, `days_to=2`,
`status_filter='completed'`. -/
def parse_args (action : Action) (host user password state_file : String)
    (s : SuppliedFilters) : Args :=
  { action := action
    host := host
    user := user
    password := password
    cache_mount := s.cache_mount
    days_from := s.days_from.getD 0
    days_to := s.days_to.getD 2
    status_filter := s.status_filter.getD "completed"
    state_file := state_file }

/-- The function `validate_args` from the source: for `resume`, collect the pause-only
parameters whose `Namespace` value differs from the parser default and
raise `ValueError` naming them when the list is nonempty. The error value
carries the list of offending parameter names. -/
def validate_args (args : Args) : Except (List String) Unit :=
  if args.action = .resume then
    let provided :=
      (if args.cache_mount ≠ none then ["cache_mount"] else []) ++
      (if args.days_from ≠ 0 then ["days_from"] else []) ++
      (if args.days_to ≠ 2 then ["days_to"] else []) ++
      (if args.status_filter ≠ "completed" then ["status_filter"] else [])
    if provided.isEmpty then .ok () else .error provided
  else .ok ()

/-- Observable side effects of a run, in order: client connection
attempts, the client list query, per-torrent pause/resume calls (by hash),
and state-file reads, writes and delete attempts. -/
inductive Event where
  | connect
  | listTorrents
  | pauseT (hash : String)
  | resumeT (hash : String)
  | readState (path : String)
  | writeState (path : String)
  | removeState (path : String)
deriving DecidableEq, Repr

/-- The qBittorrent client collaborator: connection outcome, the filtered
sorted listing used by `pause`, the full snapshot used by `resume`, and
per-torrent success of `pause()` / `resume()` calls, plus whether
`os.remove` on the state file succeeds. -/
structure ClientEnv where
  connect : Except String Unit
  torrents_info_filtered : String → List Torrent
  snapshot : List Torrent
  pause_ok : String → Bool
  resume_ok : String → Bool
  remove_ok : Bool

/-- The whole external world of one run. -/
structure Env where
  fs : FileSys
  stat : Stat
  client : ClientEnv
  now : Int
  now_iso : String

/-- The function `manage_torrents` from the source: walk the list in order, invoking
the per-torrent capability; a per-torrent failure raises out of the loop,
so nothing after the failing torrent is attempted. Returns whether the
whole batch succeeded together with the attempted calls, in order. -/
def manage_torrents (ok : String → Bool) (mk : String → Event) :
    List Torrent → Bool × List Event
  | [] => (true, [])
  | t :: rest =>
    if ok t.hash then
      let r := manage_torrents ok mk rest
      (r.1, mk t.hash :: r.2)
    else (false, [mk t.hash])

/-- The resume-phase list comprehension
`[t for t in client.torrents.info() if t.hash in saved_state['torrent_hashes']]`:
`saved_state['torrent_hashes']` and the `in` test are evaluated per
iteration and may raise (`KeyError`/`TypeError`) on a malformed state. -/
def select_resume (st : Json) : List Torrent → Except LoadErr (List Torrent)
  | [] => .ok []
  | t :: rest =>
    match json_get st "torrent_hashes" with
    | .error e => .error e
    | .ok hashes =>
      match json_contains hashes t.hash with
      | .error e => .error e
      | .ok b =>
        match select_resume st rest with
        | .error e => .error e
        | .ok l => .ok (if b then t :: l else l)

/-- Python day arithmetic `datetime.now() - timedelta(days=d)`, on
second-resolution timestamps. -/
def days_ago (now : Int) (d : Int) : Int :=
  now - d * 86400

/-- The `pause` branch of `main`: reject `days_from > days_to` before
anything else, connect, query the sorted filtered list, select, pause each
selected torrent, then persist the state; a selection that comes back
empty is a warning and a success with no actions and no state write. -/
def run_pause (env : Env) (args : Args) : Int × List Event :=
  if args.days_from > args.days_to then (1, [])
  else
    match env.client.connect with
    | .error _ => (1, [.connect])
    | .ok _ =>
      let torrent_list := env.client.torrents_info_filtered args.status_filter
      let torrents := filter_torrents env.stat torrent_list
        (days_ago env.now args.days_from) (days_ago env.now args.days_to)
        args.cache_mount
      if torrents.isEmpty then (0, [.connect, .listTorrents])
      else
        let r := manage_torrents env.client.pause_ok Event.pauseT torrents
        if r.1 then
          match save_torrent_state env.fs torrents env.now_iso args.state_file with
          | .ok _ => (0, [.connect, .listTorrents] ++ r.2 ++ [.writeState args.state_file])
          | .error _ => (1, [.connect, .listTorrents] ++ r.2)
        else (1, [.connect, .listTorrents] ++ r.2)

/-- The `resume` branch of `main`: load the saved state (its failure is
fatal before any connection), connect, take the current full snapshot,
keep exactly the snapshot torrents whose hash is in the saved set (an
empty result is only a warning), resume them, and finally attempt
`os.remove` on the state file — the attempt is made whether or not the
batch was empty, and its failure is only a warning. A per-torrent resume
failure raises before the remove is attempted. -/
def run_resume (env : Env) (args : Args) : Int × List Event :=
  match load_torrent_state env.fs args.state_file with
  | .error _ => (1, [.readState args.state_file])
  | .ok st =>
    match env.client.connect with
    | .error _ => (1, [.readState args.state_file, .connect])
    | .ok _ =>
      match select_resume st env.client.snapshot with
      | .error _ => (1, [.readState args.state_file, .connect, .listTorrents])
      | .ok torrents =>
        if torrents.isEmpty then
          (0, [.readState args.state_file, .connect, .listTorrents,
               .removeState args.state_file])
        else
          let r := manage_torrents env.client.resume_ok Event.resumeT torrents
          if r.1 then
            (0, [.readState args.state_file, .connect, .listTorrents] ++ r.2 ++
                [.removeState args.state_file])
          else
            (1, [.readState args.state_file, .connect, .listTorrents] ++ r.2)

/-- The function `main` from the source: validate the arguments (a `ValueError` is
caught by the top-level handler, exit 1, before any other effect), then
dispatch on the action; every uncaught exception maps to exit code 1 and
success to exit code 0. -/
def main (env : Env) (args : Args) : Int × List Event :=
  match validate_args args with
  | .error _ => (1, [])
  | .ok _ =>
    match args.action with
    | .pause => run_pause env args
    | .resume => run_resume env args

/-! ### Executor and reconciliation lemmas -/

theorem manage_torrents_all_ok (ok : String → Bool) (mk : String → Event) :
    ∀ l : List Torrent, (∀ t ∈ l, ok t.hash = true) →
      manage_torrents ok mk l = (true, l.map (fun t => mk t.hash))
  | [], _ => rfl
  | t :: rest, h => by
    have ht : ok t.hash = true := h t (List.mem_cons_self t rest)
    have ih := manage_torrents_all_ok ok mk rest
      (fun u hu => h u (List.mem_cons_of_mem t hu))
    simp [manage_torrents, ht, ih]

theorem manage_torrents_fails (ok : String → Bool) (mk : String → Event) :
    ∀ l1 : List Torrent, ∀ t : Torrent, ∀ l2 : List Torrent,
      (∀ u ∈ l1, ok u.hash = true) → ok t.hash = false →
      manage_torrents ok mk (l1 ++ t :: l2) =
        (false, l1.map (fun u => mk u.hash) ++ [mk t.hash])
  | [], t, l2, _, hbad => by simp [manage_torrents, hbad]
  | u :: rest, t, l2, hgood, hbad => by
    have hu : ok u.hash = true := hgood u (List.mem_cons_self u rest)
    have ih := manage_torrents_fails ok mk rest t l2
      (fun v hv => hgood v (List.mem_cons_of_mem u hv)) hbad
    simp [manage_torrents, hu, ih]

/-- A well-formed state object with its hash list. -/
def well_formed_state (hs : List String) (ts : String) : Json :=
  .obj [("torrent_hashes", .arr (hs.map Json.str)),
        ("timestamp", .str ts)]

theorem json_contains_arr_strs (h : String) :
    ∀ hs : List String,
      json_contains (.arr (hs.map Json.str)) h = .ok (decide (h ∈ hs))
  | [] => by simp [json_contains]
  | s :: rest => by
    have ih := json_contains_arr_strs h rest
    simp only [json_contains, Except.ok.injEq] at ih ⊢
    simp only [List.map_cons, List.any_cons, ih]
    by_cases e : s = h
    · subst e; simp [json_is_str]
    · have hb : json_is_str (Json.str s) h = false := by
        simp [json_is_str, e]
      simp [hb, List.mem_cons, Ne.symm e]

theorem select_resume_well_formed (hs : List String) (ts : String) :
    ∀ snapshot : List Torrent,
      select_resume (well_formed_state hs ts) snapshot =
        .ok (snapshot.filter (fun t => decide (t.hash ∈ hs)))
  | [] => rfl
  | t :: rest => by
    have ih := select_resume_well_formed hs ts rest
    have hget : json_get (well_formed_state hs ts) "torrent_hashes" =
        .ok (.arr (hs.map Json.str)) := by
      simp [well_formed_state, json_get, List.find?]
    simp [select_resume, hget, json_contains_arr_strs, ih, List.filter_cons]

theorem load_well_formed (fs : FileSys) (hs : List String)
    (ts state_file : String)
    (h : fs.files state_file = some (.json (well_formed_state hs ts))) :
    load_torrent_state fs state_file = .ok (well_formed_state hs ts) := by
  unfold load_torrent_state
  rw [h]
  simp [well_formed_state, json_contains]

/-! ### Concrete fixtures used by the witnesses and counterexamples -/

/-- Torrent added at time 90 (newest). -/
def tA : Torrent := ⟨"aaa", "A", "/downloads/a", 90⟩

/-- Torrent added at time 50. -/
def tB : Torrent := ⟨"bbb", "B", "/downloads/b", 50⟩

/-- Torrent added at time 10 (oldest). -/
def tC : Torrent := ⟨"ccc", "C", "/downloads/c", 10⟩

/-- A filesystem where every `os.stat` succeeds. -/
def stat_all : Stat := fun _ => .ok ()

/-- A filesystem where every `os.stat` fails with "not found". -/
def stat_none : Stat := fun _ => .error .enoent

/-- A filesystem where every `os.stat` fails with permission denied. -/
def stat_perm : Stat := fun _ => .error .eacces

/-- An empty but writable filesystem. -/
def fs0 : FileSys :=
  { files := fun _ => none
    dirOf := fun _ => "/data"
    exists_dir := fun _ => true
    writable := fun _ => true }

/-- A fully cooperative client with no torrents. -/
def client0 : ClientEnv :=
  { connect := .ok ()
    torrents_info_filtered := fun _ => []
    snapshot := []
    pause_ok := fun _ => true
    resume_ok := fun _ => true
    remove_ok := true }

/-- A quiet default environment. -/
def env0 : Env :=
  { fs := fs0
    stat := stat_all
    client := client0
    now := 100
    now_iso := "2026-01-01T00:00:00" }

/-! ### Claims -/

/-- C1: for every torrent list sorted descending by `added_on` and every
window with `timeoffset_to <= timeoffset_from`, `filter_torrents` with no
cache filter returns exactly the torrents whose `added_on` lies in the
window, in the original relative order (the equality with `List.filter`
gives the subset, the order, `[] → []`, the absence of any torrent below
the window, and the inclusion of every qualifying torrent before the
early exit fires). -/
theorem C1_select_sorted_window (stat : Stat) (l : List Torrent)
    (timeoffset_from timeoffset_to : Int)
    (hsorted : SortedDesc l) (_hwin : timeoffset_to ≤ timeoffset_from) :
    filter_torrents stat l timeoffset_from timeoffset_to none =
      l.filter (fun t => in_window timeoffset_from timeoffset_to t) := by
  have h := filter_torrents_sorted_eq stat none timeoffset_from timeoffset_to l hsorted
  simpa [cache_pass_none] using h

theorem C1_witness :
    SortedDesc [tA, tB, tC] ∧ (10 : Int) ≤ 80 ∧
    filter_torrents stat_all [tA, tB, tC] 80 10 none =
      [tA, tB, tC].filter (fun t => in_window 80 10 t) :=
  ⟨by decide, by decide,
   C1_select_sorted_window stat_all [tA, tB, tC] 80 10 (by decide) (by decide)⟩

/-- C10: for every input list — sorted or not — the selector's output is a
subsequence of the input (so relative order is preserved and nothing is
admitted twice), every output torrent lies in the time window and, when a
cache filter is set (a non-falsy mount), passed the cache-existence test;
moreover the output is a subsequence of the plain time-window filter, so a
sortedness violation can only omit eligible torrents, never admit an
out-of-window one or reorder the output. -/
theorem C10_filter_subsequence (stat : Stat) (l : List Torrent)
    (timeoffset_from timeoffset_to : Int) (cm : Option String) :
    List.Sublist (filter_torrents stat l timeoffset_from timeoffset_to cm) l ∧
    (∀ t ∈ filter_torrents stat l timeoffset_from timeoffset_to cm,
      (timeoffset_to ≤ t.added_on ∧ t.added_on ≤ timeoffset_from) ∧
      ∀ c, cm = some c → c ≠ "" →
        exists_in_cache stat c t.content_path = true) ∧
    List.Sublist (filter_torrents stat l timeoffset_from timeoffset_to cm)
      (l.filter (fun t => in_window timeoffset_from timeoffset_to t)) := by
  refine ⟨filter_torrents_sublist stat cm timeoffset_from timeoffset_to l, ?_, ?_⟩
  · intro t ht
    have h := filter_torrents_mem stat cm timeoffset_from timeoffset_to l t ht
    refine ⟨h.1, ?_⟩
    intro c hc hne
    have hcp := h.2
    rw [hc] at hcp
    simpa [cache_pass, hne] using hcp
  · have hsub := filter_torrents_sublist stat cm timeoffset_from timeoffset_to l
    have hself : (filter_torrents stat l timeoffset_from timeoffset_to cm).filter
        (fun t => in_window timeoffset_from timeoffset_to t) =
        filter_torrents stat l timeoffset_from timeoffset_to cm := by
      apply List.filter_eq_self.mpr
      intro t ht
      have h := filter_torrents_mem stat cm timeoffset_from timeoffset_to l t ht
      simpa [in_window] using h.1
    have := hsub.filter (fun t => in_window timeoffset_from timeoffset_to t)
    rwa [hself] at this

theorem C10_witness :
    List.Sublist (filter_torrents stat_all [tA, tB, tC] 80 10 (some "/mnt/cache"))
      [tA, tB, tC] ∧
    ((10 ≤ tB.added_on ∧ tB.added_on ≤ 80) ∧
      exists_in_cache stat_all "/mnt/cache" tB.content_path = true) ∧
    List.Sublist (filter_torrents stat_all [tA, tB, tC] 80 10 (some "/mnt/cache"))
      ([tA, tB, tC].filter (fun t => in_window 80 10 t)) := by
  have H := C10_filter_subsequence stat_all [tA, tB, tC] 80 10 (some "/mnt/cache")
  have hmem : tB ∈ filter_torrents stat_all [tA, tB, tC] 80 10 (some "/mnt/cache") := by
    decide
  have h2 := H.2.1 tB hmem
  exact ⟨H.1, ⟨h2.1, h2.2 "/mnt/cache" rfl (by decide)⟩, H.2.2⟩

/-- C5: the cache filter composes with the time window as a pure
conjunction: (1) under the sorted-descending contract, disabling the
filter (`None`) keeps every time-eligible torrent; (2) with a non-falsy
mount under which a torrent's content path does not exist, that torrent is
always excluded; (3) enabling the filter never adds a torrent (the
filtered selection is a subsequence of the unfiltered one). -/
theorem C5_cache_filter_conjunction (stat : Stat) (l : List Torrent)
    (timeoffset_from timeoffset_to : Int) (c : String) :
    (SortedDesc l → ∀ t ∈ l,
      timeoffset_to ≤ t.added_on → t.added_on ≤ timeoffset_from →
      t ∈ filter_torrents stat l timeoffset_from timeoffset_to none) ∧
    (c ≠ "" → ∀ t : Torrent, exists_in_cache stat c t.content_path = false →
      t ∉ filter_torrents stat l timeoffset_from timeoffset_to (some c)) ∧
    List.Sublist (filter_torrents stat l timeoffset_from timeoffset_to (some c))
      (filter_torrents stat l timeoffset_from timeoffset_to none) := by
  refine ⟨?_, ?_, filter_torrents_cache_sublist stat c timeoffset_from timeoffset_to l⟩
  · intro hsorted t hmem h1 h2
    rw [filter_torrents_sorted_eq stat none timeoffset_from timeoffset_to l hsorted]
    apply List.mem_filter.mpr
    exact ⟨hmem, by simp [in_window, cache_pass_none, h1, h2]⟩
  · intro hne t hcache hmem
    have h := filter_torrents_mem stat (some c) timeoffset_from timeoffset_to l t hmem
    have hcp := h.2
    simp [cache_pass, hne] at hcp
    rw [hcp] at hcache
    simp at hcache

theorem C5_witness :
    tB ∈ filter_torrents stat_none [tB] 80 10 none ∧
    tB ∉ filter_torrents stat_none [tB] 80 10 (some "/mnt/cache") ∧
    List.Sublist (filter_torrents stat_none [tB] 80 10 (some "/mnt/cache"))
      (filter_torrents stat_none [tB] 80 10 none) := by
  have H := C5_cache_filter_conjunction stat_none [tB] 80 10 "/mnt/cache"
  exact ⟨H.1 (by decide) tB (by decide) (by decide) (by decide),
         H.2.1 (by decide) tB (by decide), H.2.2⟩

/-- C6 counterexample: a permission error (`eacces`, not "not found")
while checking torrent `tB`'s joined cache path does not propagate:
`os.path.exists` swallows every `OSError`, `exists_in_cache` returns
`False`, and the selection completes normally, merely excluding the
torrent — exactly the behaviour the claim rules out. -/
theorem C6_counterexample :
    stat_perm (os_path_join "/mnt/cache" (lstripSlash tB.content_path)) =
      .error .eacces ∧
    exists_in_cache stat_perm "/mnt/cache" tB.content_path = false ∧
    filter_torrents stat_perm [tB] 80 10 (some "/mnt/cache") = [] ∧
    filter_torrents stat_perm [tB] 80 10 none = [tB] := by
  exact ⟨rfl, by decide, by decide, by decide⟩

/-- C6 amended: a filesystem error of any kind (including errors other
than "not found", e.g. permission denied) during the cache-existence test
is swallowed by `os.path.exists`: the torrent is treated as not cached and
excluded from the selection, and the selection as a whole never fails. -/
theorem C6_error_swallowed (stat : Stat) (c p : String) (e : OsErr)
    (herr : stat (os_path_join c (lstripSlash p)) = .error e) :
    exists_in_cache stat c p = false ∧
    (c ≠ "" → ∀ t : Torrent, t.content_path = p →
      ∀ l : List Torrent, ∀ timeoffset_from timeoffset_to : Int,
        t ∉ filter_torrents stat l timeoffset_from timeoffset_to (some c)) := by
  have hex : exists_in_cache stat c p = false := by
    simp [exists_in_cache, os_path_exists, herr]
  refine ⟨hex, ?_⟩
  intro hne t hp l timeoffset_from timeoffset_to hmem
  have h := filter_torrents_mem stat (some c) timeoffset_from timeoffset_to l t hmem
  have hcp := h.2
  simp [cache_pass, hne] at hcp
  rw [hp] at hcp
  rw [hcp] at hex
  simp at hex

theorem C6_witness :
    exists_in_cache stat_perm "/mnt/cache" "/downloads/b" = false ∧
    tB ∉ filter_torrents stat_perm [tB] 80 10 (some "/mnt/cache") := by
  have H := C6_error_swallowed stat_perm "/mnt/cache" "/downloads/b" .eacces rfl
  exact ⟨H.1, H.2 (by decide) tB rfl [tB] 80 10⟩

/-- C3: whenever `save_torrent_state` succeeds, `load_torrent_state` on
the same path succeeds and yields a state whose `torrent_hashes` field is
a list of strings equal, as a set, to the hashes of the saved torrents
(here in fact equal as a list). -/
theorem C3_save_load_roundtrip (fs : FileSys) (torrents : List Torrent)
    (now_iso state_file : String) (fs' : FileSys)
    (hsave : save_torrent_state fs torrents now_iso state_file = .ok fs') :
    ∃ st, load_torrent_state fs' state_file = .ok st ∧
      ∃ hashes : List String,
        json_get st "torrent_hashes" = .ok (.arr (hashes.map Json.str)) ∧
        hashes.toFinset = (torrents.map Torrent.hash).toFinset := by
  have hfile := save_torrent_state_ok fs torrents now_iso state_file fs' hsave
  exact ⟨encode_state torrents now_iso,
    load_encode_state fs' torrents now_iso state_file hfile,
    torrents.map Torrent.hash,
    json_get_encode_state torrents now_iso, rfl⟩

theorem C3_witness :
    ∃ st, load_torrent_state
        (fs_write fs0 "/data/state.json"
          (.json (encode_state [tA, tB] "2026-01-01T00:00:00")))
        "/data/state.json" = .ok st ∧
      ∃ hashes : List String,
        json_get st "torrent_hashes" = .ok (.arr (hashes.map Json.str)) ∧
        hashes.toFinset = ([tA, tB].map Torrent.hash).toFinset :=
  C3_save_load_roundtrip fs0 [tA, tB] "2026-01-01T00:00:00" "/data/state.json"
    _ rfl

/-- C4: `load_torrent_state` fails with three pairwise-distinct error
kinds in the three cases — file absent (`RuntimeError` "run pause
first"), content not valid JSON (`RuntimeError` "corrupted"), valid JSON
object lacking `torrent_hashes` or `timestamp` (`ValueError` "missing
required fields") — and whenever it returns a state that is an object,
that object has both required fields. -/
theorem C4_load_error_kinds (fs : FileSys) (state_file : String) :
    (fs.files state_file = none →
      load_torrent_state fs state_file = .error (.noStateFile state_file)) ∧
    (∀ raw, fs.files state_file = some (.garbage raw) →
      load_torrent_state fs state_file = .error (.corrupted state_file)) ∧
    (∀ fields, fs.files state_file = some (.json (.obj fields)) →
      (fields.any (fun kv => kv.1 == "torrent_hashes") = false ∨
       fields.any (fun kv => kv.1 == "timestamp") = false) →
      load_torrent_state fs state_file = .error .missingFields) ∧
    (LoadErr.noStateFile state_file ≠ .corrupted state_file ∧
     LoadErr.noStateFile state_file ≠ .missingFields ∧
     LoadErr.corrupted state_file ≠ .missingFields) ∧
    (∀ st fields, load_torrent_state fs state_file = .ok st →
      st = .obj fields →
      fields.any (fun kv => kv.1 == "torrent_hashes") = true ∧
      fields.any (fun kv => kv.1 == "timestamp") = true) := by
  refine ⟨?_, ?_, ?_, by simp, ?_⟩
  · intro h
    unfold load_torrent_state
    rw [h]
  · intro raw h
    unfold load_torrent_state
    rw [h]
  · intro fields h hmiss
    unfold load_torrent_state
    rw [h]
    rcases hmiss with hm | hm
    · simp [json_contains, hm]
    · by_cases h1 : fields.any (fun kv => kv.1 == "torrent_hashes")
      · simp [json_contains, h1, hm]
      · simp [json_contains, h1]
  · intro st fields hok hst
    subst hst
    unfold load_torrent_state at hok
    split at hok
    · exact absurd hok (by simp)
    · exact absurd hok (by simp)
    · rename_i state hfeq
      split at hok
      · exact absurd hok (by simp)
      · exact absurd hok (by simp)
      · rename_i h1
        split at hok
        · exact absurd hok (by simp)
        · exact absurd hok (by simp)
        · rename_i h2
          have hstate : state = Json.obj fields := by
            simpa using hok
          subst hstate
          constructor
          · simpa [json_contains] using h1
          · simpa [json_contains] using h2

/-- Filesystem fixture: no file at all. -/
def fs_missing : FileSys := { fs0 with files := fun _ => none }

/-- Filesystem fixture: a state file whose text is not JSON. -/
def fs_garbage : FileSys :=
  { fs0 with files := fun _ => some (.garbage "not json at all") }

/-- Filesystem fixture: a state file with valid JSON missing both
required fields. -/
def fs_nofields : FileSys :=
  { fs0 with files := fun _ => some (.json (.obj [("version", .str "1.0")])) }

theorem C4_witness :
    load_torrent_state fs_missing "s.json" = .error (.noStateFile "s.json") ∧
    load_torrent_state fs_garbage "s.json" = .error (.corrupted "s.json") ∧
    load_torrent_state fs_nofields "s.json" = .error .missingFields :=
  ⟨(C4_load_error_kinds fs_missing "s.json").1 rfl,
   (C4_load_error_kinds fs_garbage "s.json").2.1 "not json at all" rfl,
   (C4_load_error_kinds fs_nofields "s.json").2.2.1 [("version", .str "1.0")]
     rfl (.inl (by decide))⟩

/-- C8: a `pause` invocation with `days_from > days_to` exits with code 1
and an empty event trace: no client connection is attempted and no file is
touched before the rejection. -/
theorem C8_config_error_before_io (env : Env) (args : Args)
    (hact : args.action = .pause) (hbad : args.days_from > args.days_to) :
    main env args = (1, []) := by
  unfold main validate_args run_pause
  rw [hact]
  simp [hbad]

/-- A misconfigured pause invocation (`days_from=5`, `days_to=2`). -/
def argsC8 : Args :=
  parse_args .pause "localhost:8080" "admin" "adminadmin"
    "./qbit_mover_state.json"
    { cache_mount := none, days_from := some 5, days_to := some 2,
      status_filter := none }

theorem C8_witness : main env0 argsC8 = (1, []) :=
  C8_config_error_before_io env0 argsC8 rfl (by decide)

/-- C2: in the resume phase with a well-formed saved state, a working
connection, and resume calls that succeed on the saved torrents still
present, (a) the run exits 0 (no error), (b) the trace resumes exactly the
snapshot torrents whose hash is in the saved set, in snapshot order, and
ends with the state-file delete attempt — so the delete is attempted
whether or not that batch is empty — and (c) no saved identifier absent
from the snapshot is ever resumed. -/
theorem C2_resume_reconciliation (env : Env) (args : Args)
    (hs : List String) (ts : String)
    (hfile : env.fs.files args.state_file =
      some (.json (well_formed_state hs ts)))
    (hconn : env.client.connect = .ok ())
    (hresume : ∀ t ∈ env.client.snapshot, t.hash ∈ hs →
      env.client.resume_ok t.hash = true) :
    (run_resume env args).1 = 0 ∧
    (run_resume env args).2 =
      [.readState args.state_file, .connect, .listTorrents] ++
      (env.client.snapshot.filter (fun t => decide (t.hash ∈ hs))).map
        (fun t => Event.resumeT t.hash) ++
      [.removeState args.state_file] ∧
    (∀ h ∈ hs, h ∉ env.client.snapshot.map Torrent.hash →
      Event.resumeT h ∉ (run_resume env args).2) ∧
    Event.removeState args.state_file ∈ (run_resume env args).2 := by
  have hload := load_well_formed env.fs hs ts args.state_file hfile
  have hsel := select_resume_well_formed hs ts env.client.snapshot
  have hok : ∀ u ∈ env.client.snapshot.filter (fun t => decide (t.hash ∈ hs)),
      env.client.resume_ok u.hash = true := by
    intro u hu
    have hm := List.mem_filter.mp hu
    exact hresume u hm.1 (of_decide_eq_true hm.2)
  have hrun : run_resume env args =
      (0, [.readState args.state_file, .connect, .listTorrents] ++
        (env.client.snapshot.filter (fun t => decide (t.hash ∈ hs))).map
          (fun t => Event.resumeT t.hash) ++
        [.removeState args.state_file]) := by
    unfold run_resume
    simp only [hload, hconn, hsel]
    by_cases hb :
        (env.client.snapshot.filter (fun t => decide (t.hash ∈ hs))).isEmpty = true
    · have hnil : env.client.snapshot.filter (fun t => decide (t.hash ∈ hs)) = [] := by
        simpa using hb
      simp [hb, hnil]
    · have hman := manage_torrents_all_ok env.client.resume_ok Event.resumeT
        (env.client.snapshot.filter (fun t => decide (t.hash ∈ hs))) hok
      simp [hb, hman]
  refine ⟨by rw [hrun], by rw [hrun], ?_, by rw [hrun]; simp⟩
  intro h _hmem hnot hin
  rw [hrun] at hin
  simp only [List.mem_append, List.mem_cons, List.not_mem_nil, List.mem_map,
    List.mem_filter, List.mem_singleton] at hin
  rcases hin with (hin | ⟨u, ⟨husnap, _⟩, heq⟩) | hin
  · rcases hin with h1 | h1 | h1 | h1 <;> simp at h1
  · apply hnot
    have huh : u.hash = h := by
      injection heq
    rw [← huh]
    exact List.mem_map_of_mem Torrent.hash husnap
  · simp at hin

/-- Saved state `{aaa, bbb}` on disk. -/
def fsC2 : FileSys :=
  { fs0 with
    files := fun _ =>
      some (.json (well_formed_state ["aaa", "bbb"] "2026-01-01T00:00:00")) }

/-- Environment for scenario C: the live client only still has `tA`. -/
def envC2 : Env :=
  { env0 with fs := fsC2, client := { client0 with snapshot := [tA] } }

/-- A plain `resume` invocation with no pause-only flags. -/
def argsC2 : Args :=
  parse_args .resume "localhost:8080" "admin" "adminadmin"
    "./qbit_mover_state.json"
    { cache_mount := none, days_from := none, days_to := none,
      status_filter := none }

theorem C2_witness :
    (run_resume envC2 argsC2).1 = 0 ∧
    (run_resume envC2 argsC2).2 =
      [.readState argsC2.state_file, .connect, .listTorrents] ++
      (envC2.client.snapshot.filter
        (fun t => decide (t.hash ∈ ["aaa", "bbb"]))).map
        (fun t => Event.resumeT t.hash) ++
      [.removeState argsC2.state_file] ∧
    Event.resumeT "bbb" ∉ (run_resume envC2 argsC2).2 ∧
    Event.removeState argsC2.state_file ∈ (run_resume envC2 argsC2).2 := by
  have H := C2_resume_reconciliation envC2 argsC2 ["aaa", "bbb"]
    "2026-01-01T00:00:00" rfl rfl (by decide)
  exact ⟨H.1, H.2.1, H.2.2.1 "bbb" (by decide) (by decide), H.2.2.2⟩

/-- C7 counterexample: the invocation `resume --days-to 2` supplies a
pause-only flag with a value equal to its default; `argparse` collapses it
into the default `Namespace`, so `validate_args` raises no error at all,
contradicting the claim that such an invocation is rejected. -/
theorem C7_counterexample :
    ({ cache_mount := none, days_from := none, days_to := some 2,
       status_filter := none } : SuppliedFilters).days_to = some 2 ∧
    validate_args (parse_args .resume "localhost:8080" "admin" "adminadmin"
      "./qbit_mover_state.json"
      { cache_mount := none, days_from := none, days_to := some 2,
        status_filter := none }) = .ok () := by
  exact ⟨rfl, rfl⟩

/-- C7 amended: on `resume`, validation raises an error exactly when a
pause-only parameter's parsed value differs from its `argparse` default
(supplying a flag with its default value is indistinguishable from
omitting it); when it raises, the error names every offending flag and the
run exits 1 with an empty trace — before any network or file I/O. -/
theorem C7_amended_validation (env : Env) (args : Args)
    (hact : args.action = .resume)
    (hne : args.cache_mount ≠ none ∨ args.days_from ≠ 0 ∨ args.days_to ≠ 2 ∨
      args.status_filter ≠ "completed") :
    ∃ names, validate_args args = .error names ∧ names ≠ [] ∧
      (args.cache_mount ≠ none → "cache_mount" ∈ names) ∧
      (args.days_from ≠ 0 → "days_from" ∈ names) ∧
      (args.days_to ≠ 2 → "days_to" ∈ names) ∧
      (args.status_filter ≠ "completed" → "status_filter" ∈ names) ∧
      main env args = (1, []) := by
  refine ⟨(if args.cache_mount ≠ none then ["cache_mount"] else []) ++
    (if args.days_from ≠ 0 then ["days_from"] else []) ++
    (if args.days_to ≠ 2 then ["days_to"] else []) ++
    (if args.status_filter ≠ "completed" then ["status_filter"] else []),
    ?_, ?_, ?_, ?_, ?_, ?_, ?_⟩
  case _ =>
    unfold validate_args
    rw [hact]
    rcases hne with h | h | h | h <;> simp [h]
  case _ =>
    rcases hne with h | h | h | h <;> simp [h]
  case _ =>
    intro h; simp [h]
  case _ =>
    intro h; simp [h]
  case _ =>
    intro h; simp [h]
  case _ =>
    intro h; simp [h]
  case _ =>
    have hval : ∃ names₀, validate_args args = .error names₀ := by
      unfold validate_args
      rw [hact]
      rcases hne with h | h | h | h <;> simp [h]
    rcases hval with ⟨names₀, hval⟩
    unfold main
    rw [hval]

/-- A `resume` invocation that does supply a non-default pause-only flag
(`--days-from 5`). -/
def argsC7 : Args :=
  parse_args .resume "localhost:8080" "admin" "adminadmin"
    "./qbit_mover_state.json"
    { cache_mount := none, days_from := some 5, days_to := none,
      status_filter := none }

theorem C7_witness :
    ∃ names, validate_args argsC7 = .error names ∧ names ≠ [] ∧
      (argsC7.cache_mount ≠ none → "cache_mount" ∈ names) ∧
      (argsC7.days_from ≠ 0 → "days_from" ∈ names) ∧
      (argsC7.days_to ≠ 2 → "days_to" ∈ names) ∧
      (argsC7.status_filter ≠ "completed" → "status_filter" ∈ names) ∧
      main env0 argsC7 = (1, []) :=
  C7_amended_validation env0 argsC7 rfl (.inr (.inl (by decide)))

/-- C9: in the pause phase, when the per-torrent pause call fails on the
torrent right after the successful prefix `l1` of the selection, the run
aborts: the trace shows pause attempts on exactly `l1` and the failing
torrent (nothing after it), the state file is never written, and the exit
code is 1. -/
theorem C9_pause_failure_aborts (env : Env) (args : Args)
    (l1 : List Torrent) (t : Torrent) (l2 : List Torrent)
    (hact : args.action = .pause)
    (hdays : ¬ args.days_from > args.days_to)
    (hconn : env.client.connect = .ok ())
    (hsel : filter_torrents env.stat
        (env.client.torrents_info_filtered args.status_filter)
        (days_ago env.now args.days_from) (days_ago env.now args.days_to)
        args.cache_mount = l1 ++ t :: l2)
    (hgood : ∀ u ∈ l1, env.client.pause_ok u.hash = true)
    (hbad : env.client.pause_ok t.hash = false) :
    main env args = (1, [.connect, .listTorrents] ++
      l1.map (fun u => Event.pauseT u.hash) ++ [.pauseT t.hash]) ∧
    ∀ p, Event.writeState p ∉ (main env args).2 := by
  have hman := manage_torrents_fails env.client.pause_ok Event.pauseT
    l1 t l2 hgood hbad
  have hval : validate_args args = .ok () := by
    unfold validate_args
    rw [hact]
    simp
  have hmain : main env args = (1, [.connect, .listTorrents] ++
      l1.map (fun u => Event.pauseT u.hash) ++ [.pauseT t.hash]) := by
    unfold main
    rw [hval, hact]
    unfold run_pause
    rw [hconn]
    simp [hdays, hsel, hman]
  refine ⟨hmain, ?_⟩
  intro p
  rw [hmain]
  simp

/-- Environment for C9: three in-window torrents, the client's pause call
fails exactly on `tB` (the second one). -/
def envC9 : Env :=
  { env0 with client :=
      { client0 with
        torrents_info_filtered := fun _ => [tA, tB, tC]
        pause_ok := fun h => h != "bbb" } }

/-- A plain `pause` invocation with the default window (0 to 2 days). -/
def argsC9 : Args :=
  parse_args .pause "localhost:8080" "admin" "adminadmin"
    "./qbit_mover_state.json"
    { cache_mount := none, days_from := none, days_to := none,
      status_filter := none }

theorem C9_witness :
    main envC9 argsC9 = (1, [.connect, .listTorrents] ++
      [tA].map (fun u => Event.pauseT u.hash) ++ [.pauseT tB.hash]) ∧
    Event.writeState "./qbit_mover_state.json" ∉ (main envC9 argsC9).2 := by
  have H := C9_pause_failure_aborts envC9 argsC9 [tA] tB [tC] rfl (by decide)
    rfl (by decide) (by decide) rfl
  exact ⟨H.1, H.2 "./qbit_mover_state.json"⟩

end QbitMover
